import Mathlib

/-!
Verification development for the `bk7231tools` dump dissection engine
(`src/bk7231tools.py`).

Bytes are modelled as natural numbers (values 0..255), byte strings as
`List Nat`.  The modules `bk7231tools.analysis.rbl`,
`bk7231tools.analysis.flash`, `bk7231tools.analysis.utils` and
`bk7231tools.crypto.code` are not part of the sources; their operations
(`find_rbl_containers_indices`, `Container.from_bytestream`,
`Container.write_to_bytestream`, `block_crc_check`, `BekenCodeCipher.pad`,
`BekenCodeCipher.decrypt`) are taken as explicit function parameters, and
their data types (`FlashPartition`, `FlashLayout`, `Container`) are modelled
from the spec (section 3 of spec.md).
-/

/-- Python list slicing `xs[a:b]` with the usual negative-index and clamping
semantics: a negative bound counts from the end, and both bounds are clamped
to `[0, len xs]`. -/
def pySlice (xs : List Nat) (a b : Int) : List Nat :=
  let n : Int := xs.length
  let a2 : Int := if a < 0 then max (n + a) 0 else min a n
  let b2 : Int := if b < 0 then max (n + b) 0 else min b n
  (xs.drop a2.toNat).take (b2 - a2).toNat

/-- Modelled from the spec: `flash.FlashPartition` is not under `src/`.
Spec section 3 gives the fields `name`, `start_address`, `size` and
`mapped_address`.  The Boolean field `is_code` models the spec's notion of a
code-type partition (spec section 4.6 step 4); the source code under `src/`
never consults it. -/
structure FlashPartition where
  name : String
  start_address : Nat
  size : Nat
  mapped_address : Nat
  is_code : Bool
deriving DecidableEq, Repr

/-- Modelled from the spec: `flash.FlashLayout` is not under `src/`.
A named, immutable table of partitions (spec section 3). -/
structure FlashLayout where
  name : String
  partitions : List FlashPartition
deriving DecidableEq, Repr

/-- Modelled from the spec: `rbl.Container` header, not under `src/`.
Fields are the ones the orchestrator in `src/bk7231tools.py` reads:
`name`, `version` and the encoding algorithm's name (`algo.name`). -/
structure ContainerHeader where
  name : String
  version : String
  algo : String
deriving DecidableEq, Repr

/-- Modelled from the spec: `rbl.Container`, not under `src/`.
`payload = none` models Python `container.payload is None`. -/
structure Container where
  header : ContainerHeader
  payload : Option (List Nat)
deriving DecidableEq, Repr

/-- Python exceptions raised (or propagated) by the orchestrator.  The three
`valueError`-style constructors carry the data interpolated into the
f-strings of the corresponding `raise ValueError(...)` statements in
`src/bk7231tools.py`. -/
inductive PyError where
  /-- Line 100: partition name unknown in the layout. -/
  | partitionNotFound (partition_name : String) (layout_name : String)
  /-- Line 116: could not find end of partition. -/
  | endOfPartitionNotFound (partition_name : String)
  /-- Line 144: first block level CRC-16 check failed. -/
  | checksumMismatch (partition_name : String)
  /-- Attribute access on `None` (e.g. `layout.partitions` when the layout
  registry lookup returned `None`). -/
  | attributeError (attr : String)
  /-- Indexing `layout.partitions[0]` on an empty partition list. -/
  | indexError
deriving DecidableEq, Repr

/-- Value of a standard base64 alphabet character ('=' and anything else
map to 64, which only ever meets the padding positions here). -/
def b64CharVal (c : Char) : Nat :=
  if 'A' ≤ c ∧ c ≤ 'Z' then c.toNat - 65
  else if 'a' ≤ c ∧ c ≤ 'z' then c.toNat - 97 + 26
  else if '0' ≤ c ∧ c ≤ '9' then c.toNat - 48 + 52
  else if c = '+' then 62
  else if c = '/' then 63
  else 64

/-- Decode one base64 quantum of four characters into up to three bytes,
honouring '=' padding. -/
def b64Group (a b c d : Char) : List Nat :=
  let n := b64CharVal a * 262144 + b64CharVal b * 4096 + b64CharVal c * 64 + b64CharVal d
  let bytes := [n / 65536 % 256, n / 256 % 256, n % 256]
  if d = '=' then (if c = '=' then bytes.take 1 else bytes.take 2) else bytes

/-- Decode a base64 character list, four characters at a time. -/
def b64DecodeChars : List Char → List Nat
  | a :: b :: c :: d :: rest => b64Group a b c d ++ b64DecodeChars rest
  | _ => []

/-- Model of Python `base64.b64decode` on a well-formed base64 string. -/
def b64decode (s : String) : List Nat :=
  b64DecodeChars s.toList

/-- Model of Python `int.from_bytes(bs, byteorder='big')`. -/
def intFromBytesBE (bs : List Nat) : Nat :=
  bs.foldl (fun acc b => acc * 256 + b) 0

/-- Embedding of `__decrypt_code_partition` (src lines 45-52).  The constant
`CODE_PARTITION_COEFFICIENTS` and the four big-endian coefficients are
computed inside the function body, as in the source (they are re-derived on
every call).  `pad` and `decryptWith` model `BekenCodeCipher.pad` and
`BekenCodeCipher(coefficients).decrypt`, which are not under `src/`;
`decryptWith` takes the coefficient list, the padded payload and the
partition's mapped address. -/
def decrypt_code_partition (pad : List Nat → List Nat)
    (decryptWith : List Nat → List Nat → Nat → List Nat)
    (partition : FlashPartition) (payload : List Nat) : List Nat :=
  let CODE_PARTITION_COEFFICIENTS := b64decode "UQ+wk6PL6txZk6F+x63rAw=="
  let coefficients := (List.range 4).map
    (fun i => intFromBytesBE ((CODE_PARTITION_COEFFICIENTS.drop (4 * i)).take 4))
  decryptWith coefficients (pad payload) partition.mapped_address

/-- Trace model of a sequence of calls to `__decrypt_code_partition`: the
second component counts how many times the body of the function (and hence
its `base64.b64decode` statement, src line 46) is executed.  One decode per
call, since the decode statement is inside the function body. -/
def runDecryptCalls (pad : List Nat → List Nat)
    (decryptWith : List Nat → List Nat → Nat → List Nat)
    (calls : List (FlashPartition × List Nat)) : List (List Nat) × Nat :=
  calls.foldl
    (fun acc call =>
      (acc.1 ++ [decrypt_code_partition pad decryptWith call.1 call.2], acc.2 + 1))
    ([], 0)

/-- Sixteen `0xFF` bytes: the `b"\xFF" * 16` literal of the pattern scan. -/
def ff16 : List Nat := List.replicate 16 255

/-- The 16-byte chunk `data[i-16:i]` examined by the backward scans. -/
def chunkAt (data : List Nat) (i : Int) : List Nat :=
  pySlice data (i - 16) i

/-- First backward loop of `__scan_pattern_find_payload` (src lines 108-114):
starting at `i`, while `i > 0`, stop at the first chunk `data[i-16:i]` equal
to sixteen `0xFF` bytes, else decrement `i` by 16.  Returns the final value
of `i`.  Structured with explicit fuel so that it evaluates by reduction;
`findEndMarker` below supplies enough fuel for the loop to run to
completion. -/
def findEndMarkerGo (data : List Nat) : Nat → Int → Int
  | 0, i => i
  | fuel + 1, i =>
    if 0 < i then
      if chunkAt data i = ff16 then i
      else findEndMarkerGo data fuel (i - 16)
    else i

/-- The first backward loop, run with sufficient fuel. -/
def findEndMarker (data : List Nat) (i : Int) : Int :=
  findEndMarkerGo data i.toNat i

/-- The loop-exit condition of the second backward scan (src line 122):
the current chunk is not all `0xFF` while the chunk immediately before it
is. -/
def transitionAt (data : List Nat) (i : Int) : Prop :=
  chunkAt data i ≠ ff16 ∧ pySlice data (i - 32) (i - 16) = ff16

instance (data : List Nat) (i : Int) : Decidable (transitionAt data i) := by
  unfold transitionAt; infer_instance

/-- Second backward loop of `__scan_pattern_find_payload` (src lines
120-126): while `i > 0`, if the transition condition holds return
`i - 16 + 2`, else decrement `i` by 16.  Returns the final value of `i`. -/
def findBoundaryGo (data : List Nat) : Nat → Int → Int
  | 0, i => i
  | fuel + 1, i =>
    if 0 < i then
      if transitionAt data i then i - 16 + 2
      else findBoundaryGo data fuel (i - 16)
    else i

/-- The second backward loop, run with sufficient fuel. -/
def findBoundary (data : List Nat) (i : Int) : Int :=
  findBoundaryGo data i.toNat i

/-- Candidate payload region selection of `__scan_pattern_find_payload`
(src lines 107-134): locate the end-of-data marker (first loop), fail with
`none` if `i <= 0`, locate the payload boundary (second loop), slice
`data[:i]`, and fall back to the whole window when that slice is empty.
`size` is `partition.size` (the initial value of `i`); `data` is the bytes
actually read from the window. -/
def scanCandidateRegion (data : List Nat) (size : Nat) : Option (List Nat) :=
  if findEndMarker data size ≤ 0 then none
  else
    some
      (if pySlice data 0 (findBoundary data (findEndMarker data size)) = []
       then data
       else pySlice data 0 (findBoundary data (findEndMarker data size)))

/-- Checksum-chain walk of `__scan_pattern_find_payload` (src lines
136-154), with explicit fuel: repeatedly read a 32-byte block and 2 checksum
bytes from the remaining input `rest`; an empty block ends the walk; a
failed check on the very first unit raises `checksumMismatch`, a failed
check on any later unit ends the walk; a passed check appends the block to
the accumulator. -/
def walkGo (crc : List Nat → List Nat → Bool) (pname : String) :
    Nat → List Nat → Bool → List Nat → Except PyError (List Nat)
  | 0, _, _, acc => .ok acc
  | fuel + 1, rest, first, acc =>
    if rest.take 32 = [] then .ok acc
    else
      if crc (rest.take 32) ((rest.drop 32).take 2) then
        walkGo crc pname fuel (rest.drop 34) false (acc ++ rest.take 32)
      else if first then .error (.checksumMismatch pname)
      else .ok acc

/-- The checksum-chain walk over a candidate payload region, run with
sufficient fuel.  `crc` models `utils.block_crc_check`, which is not under
`src/`. -/
def checksumWalk (crc : List Nat → List Nat → Bool) (pname : String)
    (payload : List Nat) : Except PyError (List Nat) :=
  walkGo crc pname (payload.length + 1) payload true []

/-- The data block of checksum unit `k` of a payload region: bytes
`[34k, 34k+32)`. -/
def unitBlock (payload : List Nat) (k : Nat) : List Nat :=
  (payload.drop (34 * k)).take 32

/-- The checksum bytes of unit `k` of a payload region: bytes
`[34k+32, 34k+34)`. -/
def unitCrc (payload : List Nat) (k : Nat) : List Nat :=
  (payload.drop (34 * k + 32)).take 2

/-- Region selection followed by the checksum walk: the part of
`__scan_pattern_find_payload` that operates on one partition window
(src lines 104-154).  A `none` region becomes the
`endOfPartitionNotFound` error of src line 116. -/
def scanWindowPayload (crc : List Nat → List Nat → Bool) (pname : String)
    (data : List Nat) (size : Nat) : Except PyError (List Nat) :=
  match scanCandidateRegion data size with
  | none => .error (.endOfPartitionNotFound pname)
  | some region => checksumWalk crc pname region

/-- One output file written by the tool: the payload name and extra tag that
`__generate_payload_output_file_path` interpolates into
`{dumpfile_stem}_{payload_name}_{extra_tag}.bin`, plus the bytes written. -/
structure Artifact where
  payload_name : String
  extra_tag : String
  content : List Nat
deriving DecidableEq, Repr

/-- Embedding of `__scan_pattern_find_payload` (src lines 98-172).
Checks that the partition name occurs in the layout (raising
`partitionNotFound` otherwise, src lines 99-100), selects the first matching
partition, reads the window `dump[start_address : start_address + size]`,
runs the scan and walk, and, when `extract` is set, writes the raw
(`pattern_scan`) and decrypted (`pattern_scan_decrypted`) artifacts. -/
def scan_pattern_find_payload (crc : List Nat → List Nat → Bool)
    (pad : List Nat → List Nat)
    (decryptWith : List Nat → List Nat → Nat → List Nat)
    (dump : List Nat) (partition_name : String) (layout : FlashLayout)
    (extract : Bool) : Except PyError (List Nat × List Artifact) :=
  match layout.partitions.filter (fun p => p.name == partition_name) with
  | [] => .error (.partitionNotFound partition_name layout.name)
  | partition :: _ =>
    let data := (dump.drop partition.start_address).take partition.size
    match scanWindowPayload crc partition.name data partition.size with
    | .error e => .error e
    | .ok final_payload_data =>
      let arts :=
        if extract then
          [⟨partition_name, "pattern_scan", final_payload_data⟩,
           ⟨partition_name, "pattern_scan_decrypted",
             decrypt_code_partition pad decryptWith partition final_payload_data⟩]
        else []
      .ok (final_payload_data, arts)

/-- Console lines printed by `__carve_and_write_rbl_containers`. -/
inductive LogLine where
  /-- Line 68: offset printed with "FAILED TO PARSE - reason". -/
  | parseFailed (idx : Nat) (reason : String)
  /-- Lines 72-73: offset, container name, encoding algorithm, payload size. -/
  | found (idx : Nat) (name : String) (algo : String) (size : Nat)
  /-- Line 94: offset, container name, "INVALID PAYLOAD". -/
  | invalidPayload (idx : Nat) (name : String)
deriving DecidableEq, Repr

/-- The partition-by-name lookup of src lines 74-78: start from
`layout.partitions[0]` and replace it with the first partition whose name
equals `name`, if any. -/
def lookupPartition (partitions : List FlashPartition) (hd : FlashPartition)
    (name : String) : FlashPartition :=
  match partitions.find? (fun p => p.name == name) with
  | some p => p
  | none => hd

/-- Embedding of `__carve_and_write_rbl_containers` (src lines 55-95) over
the list of candidate offsets.  `parse` models
`rbl.Container.from_bytestream` at a given offset (not under `src/`;
`ValueError` becomes `.error reason`); `serialize` models
`Container.write_to_bytestream`, its Boolean argument being `payload_only`.
`layout?` is the layout object, `none` modelling Python `None`: accessing
`layout.partitions` on `None` raises `attributeError`, and
`layout.partitions[0]` on an empty list raises `indexError`.  Returns the
parsed containers, the console lines and the written artifacts. -/
def carve_and_write_rbl_containers (parse : Nat → Except String Container)
    (layout? : Option FlashLayout) (extract with_rbl : Bool)
    (pad : List Nat → List Nat)
    (decryptWith : List Nat → List Nat → Nat → List Nat)
    (serialize : Container → Bool → List Nat) :
    List Nat → Except PyError (List Container × List LogLine × List Artifact)
  | [] => .ok ([], [], [])
  | idx :: rest =>
    match parse idx with
    | .error reason =>
      match carve_and_write_rbl_containers parse layout? extract with_rbl pad
          decryptWith serialize rest with
      | .error e => .error e
      | .ok (cs, log, arts) => .ok (cs, .parseFailed idx reason :: log, arts)
    | .ok container =>
      match container.payload with
      | none =>
        match carve_and_write_rbl_containers parse layout? extract with_rbl pad
            decryptWith serialize rest with
        | .error e => .error e
        | .ok (cs, log, arts) =>
          .ok (container :: cs, .invalidPayload idx container.header.name :: log, arts)
      | some pl =>
        match layout? with
        | none => .error (.attributeError "partitions")
        | some layout =>
          match layout.partitions with
          | [] => .error .indexError
          | p0 :: _ =>
            let partition := lookupPartition layout.partitions p0 container.header.name
            let newArts :=
              if extract then
                [⟨container.header.name, container.header.version,
                   serialize container (!with_rbl)⟩,
                 ⟨container.header.name, container.header.version ++ "_decrypted",
                   decrypt_code_partition pad decryptWith partition pl⟩]
              else []
            match carve_and_write_rbl_containers parse layout? extract with_rbl pad
                decryptWith serialize rest with
            | .error e => .error e
            | .ok (cs, log, arts) =>
              .ok (container :: cs,
                   .found idx container.header.name container.header.algo pl.length :: log,
                   newArts ++ arts)

/-- The `for missing in missing_rbl_containers` loop of src lines 193-196:
run `__scan_pattern_find_payload` on each fallback name in turn,
accumulating the written artifacts; a raised error aborts the loop and
propagates. -/
def scanMissingLoop (crc : List Nat → List Nat → Bool)
    (pad : List Nat → List Nat)
    (decryptWith : List Nat → List Nat → Nat → List Nat)
    (dump : List Nat) (layout : FlashLayout) (extract : Bool) :
    List String → List Artifact → Except PyError (List Artifact)
  | [], acc => .ok acc
  | n :: rest, acc =>
    match scan_pattern_find_payload crc pad decryptWith dump n layout extract with
    | .error e => .error e
    | .ok r => scanMissingLoop crc pad decryptWith dump layout extract rest (acc ++ r.2)

/-- Result of a successful `dissect_dump_file` run: parsed containers,
console lines from the carve phase, the partition names routed through the
fallback pattern scan (in iteration order), and all written artifacts. -/
structure DissectResult where
  containers : List Container
  log : List LogLine
  fallback_names : List String
  artifacts : List Artifact
deriving DecidableEq, Repr

/-- Embedding of `dissect_dump_file` (src lines 175-196).  `registry` models
the external `flash.FLASH_LAYOUTS` dictionary; `registry.get(layout_name)`
yielding `none` models Python `None`, on which the later
`layout.partitions` access raises `attributeError` (the set comprehension
of src line 192; inside the carve it is src line 74).  `indices` models
`rbl.find_rbl_containers_indices(fs)`.  The fallback names are the layout's
partition names (as a set, modelled by `dedup`) minus the names of
successfully parsed containers with non-`None` payloads; each is routed
through `__scan_pattern_find_payload`, whose errors propagate. -/
def dissect_dump_file (registry : String → Option FlashLayout)
    (parse : Nat → Except String Container) (indices : List Nat)
    (crc : List Nat → List Nat → Bool)
    (pad : List Nat → List Nat)
    (decryptWith : List Nat → List Nat → Nat → List Nat)
    (serialize : Container → Bool → List Nat)
    (dump : List Nat) (layout_name : String) (extract with_rbl : Bool) :
    Except PyError DissectResult :=
  let layout? := registry layout_name
  match carve_and_write_rbl_containers parse layout? extract with_rbl pad
      decryptWith serialize indices with
  | .error e => .error e
  | .ok (containers, log, arts1) =>
    match layout? with
    | none => .error (.attributeError "partitions")
    | some layout =>
      let missing := ((layout.partitions.map (fun p => p.name)).dedup).filter
        (fun n => !(containers.any (fun c => c.payload.isSome && c.header.name == n)))
      match scanMissingLoop crc pad decryptWith dump layout extract missing [] with
      | .error e => .error e
      | .ok arts2 => .ok ⟨containers, log, missing, arts1 ++ arts2⟩

/-! ## Helper lemmas -/

/-- Python slice `xs[0:b]` with a nonnegative upper bound is a `take`. -/
lemma pySlice_zero (xs : List Nat) (b : Int) (hb : 0 ≤ b) :
    pySlice xs 0 b = xs.take b.toNat := by
  unfold pySlice
  have h0 : ¬ ((0:Int) < 0) := by omega
  have hb' : ¬ (b < 0) := by omega
  simp only [h0, hb', if_false]
  have hmin0 : min (0:Int) (xs.length:Int) = 0 := by omega
  rw [hmin0]
  simp only [Int.toNat_zero, List.drop_zero, Int.sub_zero]
  rcases le_or_lt b (xs.length:Int) with h | h
  · rw [min_eq_left h]
  · rw [min_eq_right h.le, Int.toNat_natCast, List.take_length]
    symm
    apply List.take_of_length_le
    omega

/-- The error raised by the checksum-chain walk is always a
`checksumMismatch` for the partition being analyzed. -/
lemma walkGo_error (crc : List Nat → List Nat → Bool) (pname : String) :
    ∀ fuel rest first acc e,
      walkGo crc pname fuel rest first acc = .error e →
      e = .checksumMismatch pname := by
  intro fuel
  induction fuel with
  | zero => intro rest first acc e h; simp [walkGo] at h
  | succ f ih =>
    intro rest first acc e h
    rw [walkGo] at h
    by_cases hb : rest.take 32 = []
    · simp [hb] at h
    · rw [if_neg hb] at h
      cases hcrc : crc (rest.take 32) ((rest.drop 32).take 2) with
      | true =>
        rw [hcrc, if_pos rfl] at h
        exact ih _ _ _ _ h
      | false =>
        rw [hcrc, if_neg Bool.false_ne_true] at h
        cases first with
        | true =>
          rw [if_pos rfl] at h
          injection h with h
          exact h.symm
        | false =>
          rw [if_neg Bool.false_ne_true] at h
          exact absurd h (by simp)

/-- Generalized specification of the checksum-chain walk: if the first `k`
units all pass and unit `k` fails (and exists), the walk returns the
accumulator followed by the data blocks of the first `k` units, provided the
`first` flag is cleared or at least one unit passes. -/
lemma walkGo_partial_result (crc : List Nat → List Nat → Bool) (pname : String) :
    ∀ k fuel rest (first : Bool) acc, rest.length < fuel →
      (first = false ∨ 0 < k) →
      (∀ j, j < k → crc (unitBlock rest j) (unitCrc rest j) = true) →
      crc (unitBlock rest k) (unitCrc rest k) = false →
      34 * k < rest.length →
      walkGo crc pname fuel rest first acc =
        .ok (acc ++ ((List.range k).map (unitBlock rest)).flatten) := by
  intro k
  induction k with
  | zero =>
    intro fuel rest first acc hfuel hfst _ hfail hlen
    have hfst' : first = false := by
      rcases hfst with h | h
      · exact h
      · omega
    subst hfst'
    obtain ⟨f, rfl⟩ : ∃ f, fuel = f + 1 := ⟨fuel - 1, by omega⟩
    rw [walkGo]
    have hne : rest.take 32 ≠ [] := by
      intro h
      rcases List.take_eq_nil_iff.mp h with h | h
      · omega
      · subst h; simp at hlen
    have hc : crc (rest.take 32) ((rest.drop 32).take 2) = false := by
      simpa [unitBlock, unitCrc] using hfail
    simp [hne, hc]
  | succ k ih =>
    intro fuel rest first acc hfuel hfst hpass hfail hlen
    obtain ⟨f, rfl⟩ : ∃ f, fuel = f + 1 := ⟨fuel - 1, by omega⟩
    rw [walkGo]
    have hne : rest.take 32 ≠ [] := by
      intro h
      rcases List.take_eq_nil_iff.mp h with h | h
      · omega
      · subst h; simp at hlen
    have hc0 : crc (rest.take 32) ((rest.drop 32).take 2) = true := by
      simpa [unitBlock, unitCrc] using hpass 0 (by omega)
    simp only [hne, if_false, hc0, if_true]
    have hshift_block : ∀ j, unitBlock (rest.drop 34) j = unitBlock rest (j + 1) := by
      intro j
      simp only [unitBlock, List.drop_drop]
      have harith : 34 + 34 * j = 34 * (j + 1) := by ring
      rw [harith]
    have hshift_crc : ∀ j, unitCrc (rest.drop 34) j = unitCrc rest (j + 1) := by
      intro j
      simp only [unitCrc, List.drop_drop]
      have harith : 34 + (34 * j + 32) = 34 * (j + 1) + 32 := by ring
      rw [harith]
    have hlen' : (rest.drop 34).length = rest.length - 34 := by simp
    rw [ih f (rest.drop 34) false (acc ++ rest.take 32)
      (by simp only [List.length_drop]; omega)
      (Or.inl rfl)
      (by intro j hj; rw [hshift_block, hshift_crc]; exact hpass (j + 1) (by omega))
      (by rw [hshift_block, hshift_crc]; simpa using hfail)
      (by simp only [List.length_drop]; omega)]
    congr 1
    rw [List.range_succ_eq_map, List.map_cons, List.flatten_cons, List.map_map]
    have hfun : (unitBlock rest ∘ Nat.succ) = unitBlock (rest.drop 34) := by
      funext j
      rw [Function.comp_apply, hshift_block]
    rw [hfun]
    have hb0 : unitBlock rest 0 = rest.take 32 := by simp [unitBlock]
    rw [hb0, List.append_assoc]

/-! ## Claim C1 -/

/-- Claim C1: in the checksum-chain walk of `__scan_pattern_find_payload`
over consecutive 32-byte-data + 2-byte-checksum units of a candidate
payload region, (1) if the first unit fails checksum validation the walk
raises the fatal `checksumMismatch` error for the partition, and (2) if the
units before unit `k` (for `k ≥ 1`) all validate and unit `k` is the first
to fail, the walk stops and returns, as a successful result, the
concatenation of the 32-byte data blocks of the `k` validated units, with
checksum bytes stripped. -/
theorem claim_c1_checksum_chain_walk (crc : List Nat → List Nat → Bool)
    (pname : String) (payload : List Nat) :
    (payload ≠ [] → crc (unitBlock payload 0) (unitCrc payload 0) = false →
      checksumWalk crc pname payload = .error (.checksumMismatch pname)) ∧
    (∀ k, 0 < k → 34 * k < payload.length →
      (∀ j, j < k → crc (unitBlock payload j) (unitCrc payload j) = true) →
      crc (unitBlock payload k) (unitCrc payload k) = false →
      checksumWalk crc pname payload =
        .ok (((List.range k).map (unitBlock payload)).flatten)) := by
  constructor
  · intro hne hfail
    unfold checksumWalk
    obtain ⟨f, hf⟩ : ∃ f, payload.length + 1 = f + 1 := ⟨payload.length, rfl⟩
    rw [hf, walkGo]
    have hb : payload.take 32 ≠ [] := by
      intro h
      rcases List.take_eq_nil_iff.mp h with h | h
      · omega
      · exact hne h
    have hc : crc (payload.take 32) ((payload.drop 32).take 2) = false := by
      simpa [unitBlock, unitCrc] using hfail
    simp [hb, hc]
  · intro k hk hlen hpass hfail
    unfold checksumWalk
    rw [walkGo_partial_result crc pname k (payload.length + 1) payload true []
      (by omega) (Or.inr hk) hpass hfail hlen]
    simp

/-- Concrete checksum predicate used by witnesses: a unit passes exactly
when its two checksum bytes are `[7, 7]`. -/
def crcSeven : List Nat → List Nat → Bool :=
  fun _ c => c == [7, 7]

/-- Concrete payload whose first unit fails `crcSeven`. -/
def payloadFirstBad : List Nat := List.replicate 32 1 ++ [9, 9]

/-- Concrete payload whose first unit passes `crcSeven` and whose second
unit fails it. -/
def payloadSecondBad : List Nat :=
  List.replicate 32 1 ++ [7, 7] ++ List.replicate 32 2 ++ [9, 9]

/-- Witness for claim C1 at concrete inputs: a first-unit checksum failure
raises `checksumMismatch`, and a second-unit failure returns the first
unit's data block. -/
theorem claim_c1_checksum_chain_walk_witness :
    checksumWalk crcSeven "app" payloadFirstBad = .error (.checksumMismatch "app") ∧
    checksumWalk crcSeven "app" payloadSecondBad =
      .ok (((List.range 1).map (unitBlock payloadSecondBad)).flatten) := by
  constructor
  · exact (claim_c1_checksum_chain_walk crcSeven "app" payloadFirstBad).1
      (by decide) (by decide)
  · exact (claim_c1_checksum_chain_walk crcSeven "app" payloadSecondBad).2 1
      (by decide) (by decide)
      (by
        intro j hj
        have hj0 : j = 0 := by omega
        subst hj0
        decide)
      (by decide)

/-- Specification of the first backward loop: from `i = 16 * m` with fuel at
least `m`, either no chunk at a positive multiple of 16 up to `16 * m` is
all-`0xFF` and the loop runs down to 0, or the loop stops at the largest
such position whose chunk is all-`0xFF`. -/
lemma findEndMarkerGo_spec (data : List Nat) :
    ∀ m fuel, m ≤ fuel →
      (findEndMarkerGo data fuel (16 * (m:Int)) = 0 ∧
        ∀ k : Nat, 0 < k → k ≤ m → chunkAt data (16 * (k:Int)) ≠ ff16) ∨
      (∃ k : Nat, 0 < k ∧ k ≤ m ∧
        findEndMarkerGo data fuel (16 * (m:Int)) = 16 * (k:Int) ∧
        chunkAt data (16 * (k:Int)) = ff16 ∧
        ∀ j : Nat, k < j → j ≤ m → chunkAt data (16 * (j:Int)) ≠ ff16) := by
  intro m
  induction m with
  | zero =>
    intro fuel _
    left
    constructor
    · cases fuel with
      | zero => simp [findEndMarkerGo]
      | succ f => simp [findEndMarkerGo]
    · intro k hk hkm
      omega
  | succ m ih =>
    intro fuel hm
    obtain ⟨f, rfl⟩ : ∃ f, fuel = f + 1 := ⟨fuel - 1, by omega⟩
    rw [findEndMarkerGo]
    have hpos : (0:Int) < 16 * (((m+1):Nat):Int) := by push_cast; omega
    rw [if_pos hpos]
    by_cases hchunk : chunkAt data (16 * (((m+1):Nat):Int)) = ff16
    · rw [if_pos hchunk]
      right
      exact ⟨m + 1, by omega, le_refl _, rfl, hchunk, by intro j hj hj2; omega⟩
    · rw [if_neg hchunk]
      have harg : 16 * (((m+1):Nat):Int) - 16 = 16 * ((m:Nat):Int) := by
        push_cast
        ring
      rw [harg]
      rcases ih f (by omega) with ⟨h0, hnone⟩ | ⟨k, hk0, hkm, heq, hff, hmax⟩
      · left
        refine ⟨h0, ?_⟩
        intro k hk hkm
        by_cases hke : k = m + 1
        · subst hke
          exact hchunk
        · exact hnone k hk (by omega)
      · right
        refine ⟨k, hk0, by omega, heq, hff, ?_⟩
        intro j hj hjm
        by_cases hje : j = m + 1
        · subst hje
          exact hchunk
        · exact hmax j hj (by omega)

/-- The first backward loop of the pattern scan, as actually invoked
(`findEndMarker`), satisfies the loop specification. -/
lemma findEndMarker_spec (data : List Nat) (m : Nat) :
    (findEndMarker data (16 * (m:Int)) = 0 ∧
      ∀ k : Nat, 0 < k → k ≤ m → chunkAt data (16 * (k:Int)) ≠ ff16) ∨
    (∃ k : Nat, 0 < k ∧ k ≤ m ∧
      findEndMarker data (16 * (m:Int)) = 16 * (k:Int) ∧
      chunkAt data (16 * (k:Int)) = ff16 ∧
      ∀ j : Nat, k < j → j ≤ m → chunkAt data (16 * (j:Int)) ≠ ff16) := by
  have hfuel : m ≤ (16 * (m:Int)).toNat := by
    have : (16 * (m:Int)) = (((16 * m : Nat)):Int) := by push_cast; ring
    rw [this, Int.toNat_natCast]
    omega
  exact findEndMarkerGo_spec data m ((16 * (m:Int)).toNat) hfuel

/-- Specification of the second backward loop: from `i = 16 * m` with fuel
at least `m`, either no transition occurs at a positive multiple of 16 up to
`16 * m` and the loop runs down to 0, or the loop stops at the largest such
position `16 * k` with a transition, returning `16 * k - 14`
(that is, `i - 16 + 2`). -/
lemma findBoundaryGo_spec (data : List Nat) :
    ∀ m fuel, m ≤ fuel →
      (findBoundaryGo data fuel (16 * (m:Int)) = 0 ∧
        ∀ k : Nat, 0 < k → k ≤ m → ¬ transitionAt data (16 * (k:Int))) ∨
      (∃ k : Nat, 0 < k ∧ k ≤ m ∧
        findBoundaryGo data fuel (16 * (m:Int)) = 16 * (k:Int) - 14 ∧
        transitionAt data (16 * (k:Int)) ∧
        ∀ j : Nat, k < j → j ≤ m → ¬ transitionAt data (16 * (j:Int))) := by
  intro m
  induction m with
  | zero =>
    intro fuel _
    left
    constructor
    · cases fuel with
      | zero => simp [findBoundaryGo]
      | succ f => simp [findBoundaryGo]
    · intro k hk hkm
      omega
  | succ m ih =>
    intro fuel hm
    obtain ⟨f, rfl⟩ : ∃ f, fuel = f + 1 := ⟨fuel - 1, by omega⟩
    rw [findBoundaryGo]
    have hpos : (0:Int) < 16 * (((m+1):Nat):Int) := by push_cast; omega
    rw [if_pos hpos]
    by_cases htr : transitionAt data (16 * (((m+1):Nat):Int))
    · rw [if_pos htr]
      right
      refine ⟨m + 1, by omega, le_refl _, ?_, htr, by intro j hj hj2; omega⟩
      push_cast
      ring
    · rw [if_neg htr]
      have harg : 16 * (((m+1):Nat):Int) - 16 = 16 * ((m:Nat):Int) := by
        push_cast
        ring
      rw [harg]
      rcases ih f (by omega) with ⟨h0, hnone⟩ | ⟨k, hk0, hkm, heq, htrk, hmax⟩
      · left
        refine ⟨h0, ?_⟩
        intro k hk hkm
        by_cases hke : k = m + 1
        · subst hke
          exact htr
        · exact hnone k hk (by omega)
      · right
        refine ⟨k, hk0, by omega, heq, htrk, ?_⟩
        intro j hj hjm
        by_cases hje : j = m + 1
        · subst hje
          exact htr
        · exact hmax j hj (by omega)

/-- The second backward loop of the pattern scan, as actually invoked
(`findBoundary`), satisfies the loop specification. -/
lemma findBoundary_spec (data : List Nat) (m : Nat) :
    (findBoundary data (16 * (m:Int)) = 0 ∧
      ∀ k : Nat, 0 < k → k ≤ m → ¬ transitionAt data (16 * (k:Int))) ∨
    (∃ k : Nat, 0 < k ∧ k ≤ m ∧
      findBoundary data (16 * (m:Int)) = 16 * (k:Int) - 14 ∧
      transitionAt data (16 * (k:Int)) ∧
      ∀ j : Nat, k < j → j ≤ m → ¬ transitionAt data (16 * (j:Int))) := by
  have hfuel : m ≤ (16 * (m:Int)).toNat := by
    have : (16 * (m:Int)) = (((16 * m : Nat)):Int) := by push_cast; ring
    rw [this, Int.toNat_natCast]
    omega
  exact findBoundaryGo_spec data m ((16 * (m:Int)).toNat) hfuel

/-! ## Claim C3 -/

/-- Claim C3: the end-of-data marker search of the pattern-scan extractor
scans 16-byte chunks backward from the end of the partition window and
stops at the first (largest-address) chunk that is entirely `0xFF`;
if no chunk of the window is entirely `0xFF`, the extraction fails with the
`endOfPartitionNotFound` error (and hence returns no payload). -/
theorem claim_c3_end_of_partition (crc : List Nat → List Nat → Bool)
    (pname : String) (data : List Nat) (size : Nat) (h16 : 16 ∣ size) :
    (0 < findEndMarker data (size:Int) →
      chunkAt data (findEndMarker data (size:Int)) = ff16 ∧
      ∃ m : Nat, 0 < m ∧ 16 * m ≤ size ∧
        findEndMarker data (size:Int) = 16 * (m:Int) ∧
        ∀ j : Nat, m < j → 16 * j ≤ size → chunkAt data (16 * (j:Int)) ≠ ff16) ∧
    ((∀ k : Nat, 0 < k → 16 * k ≤ size → chunkAt data (16 * (k:Int)) ≠ ff16) ↔
      scanWindowPayload crc pname data size = .error (.endOfPartitionNotFound pname)) := by
  obtain ⟨s, rfl⟩ := h16
  have hcast : (((16 * s : Nat)):Int) = 16 * (s:Int) := by push_cast; ring
  have hspec := findEndMarker_spec data s
  constructor
  · intro hpos
    rw [hcast] at hpos
    rcases hspec with ⟨h0, _⟩ | ⟨k, hk0, hks, heq, hff, hmax⟩
    · rw [h0] at hpos
      exact absurd hpos (by omega)
    · constructor
      · rw [hcast, heq]
        exact hff
      · refine ⟨k, hk0, by omega, ?_, ?_⟩
        · rw [hcast]
          exact heq
        · intro j hj hle
          exact hmax j hj (by omega)
  · constructor
    · intro hnone
      have h0 : findEndMarker data (16 * (s:Int)) = 0 := by
        rcases hspec with ⟨h0, _⟩ | ⟨k, hk0, hks, heq, hff, _⟩
        · exact h0
        · exact absurd hff (hnone k hk0 (by omega))
      unfold scanWindowPayload scanCandidateRegion
      rw [hcast, h0]
      simp
    · intro herr
      by_contra hno
      push_neg at hno
      obtain ⟨k, hk0, hkle, hchunk⟩ := hno
      have hpos : 0 < findEndMarker data (16 * (s:Int)) := by
        rcases hspec with ⟨h0, hnone⟩ | ⟨k2, hk20, hk2s, heq, hff, hmax⟩
        · exact absurd hchunk (hnone k hk0 (by omega))
        · rw [heq]
          omega
      obtain ⟨region, hregion⟩ :
          ∃ r, scanCandidateRegion data (16 * s) = some r := by
        unfold scanCandidateRegion
        rw [hcast]
        rw [if_neg (by omega)]
        exact ⟨_, rfl⟩
      simp only [scanWindowPayload, hregion] at herr
      have hmis := walkGo_error crc pname (region.length + 1) region true [] _ herr
      simp at hmis

/-- Window of sixteen `0xFF` bytes: concrete input for witnesses, where the
end-of-data marker is found immediately. -/
def windowAllFF : List Nat := List.replicate 16 255

/-- Window of thirty-two zero bytes: concrete input for witnesses, where no
all-`0xFF` chunk exists. -/
def windowNoFF : List Nat := List.replicate 32 0

/-- Witness for claim C3 at concrete inputs: on an all-`0xFF` 16-byte window
the marker search stops at its specified position, and on a 32-byte window
with no `0xFF` chunk the extraction fails with `endOfPartitionNotFound`. -/
theorem claim_c3_end_of_partition_witness :
    (chunkAt windowAllFF (findEndMarker windowAllFF (16:Int)) = ff16 ∧
      ∃ m : Nat, 0 < m ∧ 16 * m ≤ 16 ∧
        findEndMarker windowAllFF (16:Int) = 16 * (m:Int) ∧
        ∀ j : Nat, m < j → 16 * j ≤ 16 → chunkAt windowAllFF (16 * (j:Int)) ≠ ff16) ∧
    scanWindowPayload crcSeven "app" windowNoFF 32 =
      .error (.endOfPartitionNotFound "app") := by
  constructor
  · exact (claim_c3_end_of_partition crcSeven "app" windowAllFF 16 (by decide)).1
      (by decide)
  · exact (claim_c3_end_of_partition crcSeven "app" windowNoFF 32 (by decide)).2.mp
      (by
        intro k hk hle
        have hk2 : k ≤ 2 := by omega
        interval_cases k
        · decide
        · decide)

/-! ## Claim C2 -/

/-- Claim C2: continuing backward from the end-of-data marker, the
candidate payload region ends at the first chunk (largest position `16 * k`
at or below the marker) that is not all-`0xFF` while the chunk immediately
preceding it is all-`0xFF`, and the region is the window prefix of length
two bytes past the start of that chunk (`16 * k - 16 + 2`); if no such
transition exists, the sliced payload region is empty and the whole
partition window is used as the candidate region instead. -/
theorem claim_c2_payload_boundary (data : List Nat) (size : Nat)
    (h16 : 16 ∣ size) (hpos : 0 < findEndMarker data (size:Int)) :
    (∀ k : Nat, 0 < k → 16 * (k:Int) ≤ findEndMarker data (size:Int) →
      transitionAt data (16 * (k:Int)) →
      (∀ j : Nat, k < j → 16 * (j:Int) ≤ findEndMarker data (size:Int) →
        ¬ transitionAt data (16 * (j:Int))) →
      scanCandidateRegion data size = some (data.take (16 * k - 16 + 2))) ∧
    ((∀ k : Nat, 0 < k → 16 * (k:Int) ≤ findEndMarker data (size:Int) →
      ¬ transitionAt data (16 * (k:Int))) →
      pySlice data 0 (findBoundary data (findEndMarker data (size:Int))) = [] ∧
      scanCandidateRegion data size = some data) := by
  obtain ⟨s, rfl⟩ := h16
  have hcast : (((16 * s : Nat)):Int) = 16 * (s:Int) := by push_cast; ring
  rw [hcast] at hpos ⊢
  rcases findEndMarker_spec data s with ⟨h0, _⟩ | ⟨m1, hm10, hm1s, heqM, hffM, hmaxM⟩
  · rw [h0] at hpos
    exact absurd hpos (by omega)
  · rw [heqM]
    constructor
    · intro k hk0 hkle htr hmaxk
      have hkm1 : k ≤ m1 := by
        have := hkle
        omega
      rcases findBoundary_spec data m1 with ⟨hb0, hnone⟩ | ⟨k2, hk20, hk2m, heqB, htr2, hmax2⟩
      · exact absurd htr (hnone k hk0 hkm1)
      · have hkk : k = k2 := by
          rcases lt_trichotomy k k2 with h | h | h
          · exact absurd htr2 (hmaxk k2 h (by omega))
          · exact h
          · exact absurd htr (hmax2 k h hkm1)
        subst hkk
        unfold scanCandidateRegion
        rw [hcast, heqM]
        rw [if_neg (by omega)]
        rw [heqB]
        have hb : (0:Int) ≤ 16 * (k:Int) - 14 := by omega
        rw [pySlice_zero data _ hb]
        have htn : (16 * (k:Int) - 14).toNat = 16 * k - 14 := by omega
        rw [htn]
        have h2 : 16 * k - 16 + 2 = 16 * k - 14 := by omega
        rw [h2]
        by_cases hdata : data.take (16 * k - 14) = []
        · rcases List.take_eq_nil_iff.mp hdata with h | h
          · omega
          · rw [if_pos hdata, h]
            rw [List.take_nil]
        · rw [if_neg hdata]
    · intro hnone
      rcases findBoundary_spec data m1 with ⟨hb0, _⟩ | ⟨k2, hk20, hk2m, heqB, htr2, _⟩
      · constructor
        · rw [hb0]
          rw [pySlice_zero data 0 (le_refl 0)]
          simp
        · unfold scanCandidateRegion
          rw [hcast, heqM]
          rw [if_neg (by omega)]
          rw [hb0]
          rw [pySlice_zero data 0 (le_refl 0)]
          simp
      · exact absurd htr2 (hnone k2 hk20 (by omega))

/-- Concrete 48-byte window `FF16 ++ sixteen 3s ++ FF16`: the chunk at
position 32 is not all-`0xFF` while its predecessor is, so the boundary
scan stops there. -/
def windowTransition : List Nat :=
  List.replicate 16 255 ++ List.replicate 16 3 ++ List.replicate 16 255

/-- Concrete 48-byte window `sixteen 1s ++ sixteen 2s ++ FF16`: the marker
is found but no transition chunk exists below it. -/
def windowNoTransition : List Nat :=
  List.replicate 16 1 ++ List.replicate 16 2 ++ List.replicate 16 255

/-- Witness for claim C2 at concrete inputs: with a transition at position
32 the candidate region is the 18-byte prefix, and with no transition the
sliced region is empty and the whole window is used. -/
theorem claim_c2_payload_boundary_witness :
    scanCandidateRegion windowTransition 48 =
      some (windowTransition.take (16 * 2 - 16 + 2)) ∧
    (pySlice windowNoTransition 0
        (findBoundary windowNoTransition
          (findEndMarker windowNoTransition ((48:Nat):Int))) = [] ∧
      scanCandidateRegion windowNoTransition 48 = some windowNoTransition) := by
  constructor
  · exact (claim_c2_payload_boundary windowTransition 48 (by decide) (by decide)).1 2
      (by decide) (by decide) (by decide)
      (by
        intro j hj hle
        have h48 : findEndMarker windowTransition ((48:Nat):Int) = 48 := by decide
        rw [h48] at hle
        have hj3 : j = 3 := by omega
        subst hj3
        decide)
  · exact (claim_c2_payload_boundary windowNoTransition 48 (by decide) (by decide)).2
      (by
        intro k hk hle
        have h48 : findEndMarker windowNoTransition ((48:Nat):Int) = 48 := by decide
        rw [h48] at hle
        have hk3 : k ≤ 3 := by omega
        interval_cases k
        · decide
        · decide
        · decide)

/-! ## Claim C7 -/

/-- Claim C7: calling the fallback pattern-scan extractor with a partition
name absent from the layout fails with the `partitionNotFound` error
carrying the requested name and the layout name.  The result is the same
for every dump stream and extraction flag (the stream is never read) and
the error result carries no payload and no written artifact. -/
theorem claim_c7_partition_not_found (crc : List Nat → List Nat → Bool)
    (pad : List Nat → List Nat)
    (decryptWith : List Nat → List Nat → Nat → List Nat)
    (name : String) (layout : FlashLayout)
    (h : ∀ p ∈ layout.partitions, p.name ≠ name) :
    ∀ dump extract,
      scan_pattern_find_payload crc pad decryptWith dump name layout extract =
        .error (.partitionNotFound name layout.name) := by
  intro dump extract
  have hfil : layout.partitions.filter (fun p => p.name == name) = [] := by
    rw [List.filter_eq_nil_iff]
    intro p hp
    simp only [beq_iff_eq]
    exact h p hp
  unfold scan_pattern_find_payload
  rw [hfil]

/-- Identity model of `BekenCodeCipher.pad`, used by witnesses. -/
def padIdent : List Nat → List Nat := fun payload => payload

/-- Model of `BekenCodeCipher.decrypt` that returns its input, used by
witnesses. -/
def decryptIdent : List Nat → List Nat → Nat → List Nat :=
  fun _ payload _ => payload

/-- Concrete non-code partition used by witnesses and counterexamples. -/
def appPartition : FlashPartition :=
  ⟨"app", 0, 16, 65536, false⟩

/-- Concrete one-partition layout used by witnesses and counterexamples. -/
def appLayout : FlashLayout := ⟨"ota_1", [appPartition]⟩

/-- Witness for claim C7: asking `appLayout` for the unknown partition
name raises `partitionNotFound` on an empty dump. -/
theorem claim_c7_partition_not_found_witness :
    scan_pattern_find_payload crcSeven padIdent decryptIdent [] "bootloader"
      appLayout true = .error (.partitionNotFound "bootloader" "ota_1") :=
  claim_c7_partition_not_found crcSeven padIdent decryptIdent "bootloader"
    appLayout (by decide) [] true

/-! ## Carve-phase lemmas -/

/-- With a present layout whose partition list is nonempty, the carve phase
never raises: it returns a result for every index list. -/
lemma carve_ok (parse : Nat → Except String Container) (layout : FlashLayout)
    (p0 : FlashPartition) (ps : List FlashPartition)
    (e w : Bool) (pad : List Nat → List Nat)
    (decryptWith : List Nat → List Nat → Nat → List Nat)
    (serialize : Container → Bool → List Nat)
    (hne : layout.partitions = p0 :: ps) :
    ∀ indices, ∃ r,
      carve_and_write_rbl_containers parse (some layout) e w pad decryptWith
        serialize indices = .ok r := by
  intro indices
  induction indices with
  | nil => exact ⟨([], [], []), rfl⟩
  | cons idx rest ih =>
    obtain ⟨⟨cs, log, arts⟩, hr⟩ := ih
    cases hp : parse idx with
    | error reason =>
      refine ⟨(cs, .parseFailed idx reason :: log, arts), ?_⟩
      rw [carve_and_write_rbl_containers, hp, hr]
    | ok container =>
      cases hpl : container.payload with
      | none =>
        refine ⟨(container :: cs, .invalidPayload idx container.header.name :: log, arts), ?_⟩
        rw [carve_and_write_rbl_containers, hp]
        dsimp only
        rw [hpl, hr]
      | some pl =>
        refine ⟨(container :: cs,
          .found idx container.header.name container.header.algo pl.length :: log,
          (if e = true then
            [⟨container.header.name, container.header.version, serialize container (!w)⟩,
             ⟨container.header.name, container.header.version ++ "_decrypted",
               decrypt_code_partition pad decryptWith
                 (lookupPartition (p0 :: ps) p0 container.header.name) pl⟩]
          else []) ++ arts), ?_⟩
        rw [carve_and_write_rbl_containers, hp]
        dsimp only
        rw [hpl]
        dsimp only
        rw [hne]
        dsimp only
        rw [hr]

/-- The carve phase collects exactly the successfully parsed containers, in
offset order, and logs a `parseFailed` line with offset and reason for every
offset whose parse raises. -/
lemma carve_containers_log (parse : Nat → Except String Container)
    (layout? : Option FlashLayout) (e w : Bool) (pad : List Nat → List Nat)
    (decryptWith : List Nat → List Nat → Nat → List Nat)
    (serialize : Container → Bool → List Nat) :
    ∀ indices cs log arts,
      carve_and_write_rbl_containers parse layout? e w pad decryptWith
        serialize indices = .ok (cs, log, arts) →
      cs = indices.filterMap (fun i => (parse i).toOption) ∧
      (∀ i r, i ∈ indices → parse i = .error r → LogLine.parseFailed i r ∈ log) := by
  intro indices
  induction indices with
  | nil =>
    intro cs log arts hok
    simp only [carve_and_write_rbl_containers, Except.ok.injEq, Prod.mk.injEq] at hok
    obtain ⟨h1, h2, h3⟩ := hok
    subst h1
    subst h2
    constructor
    · simp
    · intro i r hi
      simp at hi
  | cons idx rest ih =>
    intro cs log arts hok
    rw [carve_and_write_rbl_containers] at hok
    cases hp : parse idx with
    | error reason =>
      rw [hp] at hok
      dsimp only at hok
      cases hrec : carve_and_write_rbl_containers parse layout? e w pad
          decryptWith serialize rest with
      | error e2 =>
        rw [hrec] at hok
        exact absurd hok (by simp)
      | ok r =>
        obtain ⟨cs2, log2, arts2⟩ := r
        rw [hrec] at hok
        dsimp only at hok
        simp only [Except.ok.injEq, Prod.mk.injEq] at hok
        obtain ⟨h1, h2, h3⟩ := hok
        subst h1
        subst h3
        subst h2
        obtain ⟨ihc, ihl⟩ := ih cs2 log2 arts2 hrec
        constructor
        · simp only [List.filterMap_cons, hp, Except.toOption]
          exact ihc
        · intro i r hi hpi
          rcases List.mem_cons.mp hi with h | h
          · subst h
            rw [hp] at hpi
            injection hpi with h2
            subst h2
            exact List.mem_cons_self _ _
          · exact List.mem_cons_of_mem _ (ihl i r h hpi)
    | ok container =>
      rw [hp] at hok
      dsimp only at hok
      cases hpl : container.payload with
      | none =>
        rw [hpl] at hok
        dsimp only at hok
        cases hrec : carve_and_write_rbl_containers parse layout? e w pad
            decryptWith serialize rest with
        | error e2 =>
          rw [hrec] at hok
          exact absurd hok (by simp)
        | ok r =>
          obtain ⟨cs2, log2, arts2⟩ := r
          rw [hrec] at hok
          dsimp only at hok
          simp only [Except.ok.injEq, Prod.mk.injEq] at hok
          obtain ⟨h1, h2, h3⟩ := hok
          subst h1
          subst h3
          subst h2
          obtain ⟨ihc, ihl⟩ := ih cs2 log2 arts2 hrec
          constructor
          · have htop : (parse idx).toOption = some container := by
              rw [hp]
              rfl
            simp only [List.filterMap_cons, htop]
            rw [ihc]
          · intro i r hi hpi
            rcases List.mem_cons.mp hi with h | h
            · subst h
              rw [hp] at hpi
              exact absurd hpi (by simp)
            · exact List.mem_cons_of_mem _ (ihl i r h hpi)
      | some pl =>
        rw [hpl] at hok
        dsimp only at hok
        cases hlay : layout? with
        | none =>
          rw [hlay] at hok
          exact absurd hok (by simp)
        | some layout =>
          subst hlay
          dsimp only at hok
          cases hps : layout.partitions with
          | nil =>
            rw [hps] at hok
            exact absurd hok (by simp)
          | cons p0 ps2 =>
            rw [hps] at hok
            dsimp only at hok
            cases hrec : carve_and_write_rbl_containers parse (some layout) e w pad
                decryptWith serialize rest with
            | error e2 =>
              rw [hrec] at hok
              exact absurd hok (by simp)
            | ok r =>
              obtain ⟨cs2, log2, arts2⟩ := r
              rw [hrec] at hok
              dsimp only at hok
              simp only [Except.ok.injEq, Prod.mk.injEq] at hok
              obtain ⟨h1, h2, h3⟩ := hok
              subst h1
              subst h3
              subst h2
              obtain ⟨ihc, ihl⟩ := ih cs2 log2 arts2 hrec
              constructor
              · have htop : (parse idx).toOption = some container := by
                  rw [hp]
                  rfl
                simp only [List.filterMap_cons, htop]
                rw [ihc]
              · intro i r hi hpi
                rcases List.mem_cons.mp hi with h | h
                · subst h
                  rw [hp] at hpi
                  exact absurd hpi (by simp)
                · exact List.mem_cons_of_mem _ (ihl i r h hpi)

/-- When extraction is enabled, every successfully parsed container with a
non-`None` payload gets two artifacts written: the raw one (tagged with the
container's version, content produced by `write_to_bytestream` with
`payload_only = not with_rbl`) and the decrypted one (tagged
`<version>_decrypted`, content produced by `__decrypt_code_partition` with
the partition selected by the name lookup of src lines 74-78).  Both are
written under the container's own header name. -/
lemma carve_artifacts_mem (parse : Nat → Except String Container)
    (layout : FlashLayout) (p0 : FlashPartition) (ps : List FlashPartition)
    (w : Bool) (pad : List Nat → List Nat)
    (decryptWith : List Nat → List Nat → Nat → List Nat)
    (serialize : Container → Bool → List Nat)
    (hne : layout.partitions = p0 :: ps) :
    ∀ indices i c pl cs log arts,
      i ∈ indices → parse i = .ok c → c.payload = some pl →
      carve_and_write_rbl_containers parse (some layout) true w pad decryptWith
        serialize indices = .ok (cs, log, arts) →
      Artifact.mk c.header.name c.header.version (serialize c (!w)) ∈ arts ∧
      Artifact.mk c.header.name (c.header.version ++ "_decrypted")
        (decrypt_code_partition pad decryptWith
          (lookupPartition layout.partitions p0 c.header.name) pl) ∈ arts := by
  intro indices
  induction indices with
  | nil =>
    intro i c pl cs log arts hi
    simp at hi
  | cons idx rest ih =>
    intro i c pl cs log arts hi hp hpl hok
    rw [carve_and_write_rbl_containers] at hok
    rcases List.mem_cons.mp hi with heq | hmem
    · subst heq
      rw [hp] at hok
      dsimp only at hok
      rw [hpl] at hok
      dsimp only at hok
      rw [hne] at hok
      dsimp only at hok
      cases hrec : carve_and_write_rbl_containers parse (some layout) true w pad
          decryptWith serialize rest with
      | error e2 =>
        rw [hrec] at hok
        exact absurd hok (by simp)
      | ok r =>
        obtain ⟨cs2, log2, arts2⟩ := r
        rw [hrec] at hok
        dsimp only at hok
        simp only [Except.ok.injEq, Prod.mk.injEq] at hok
        obtain ⟨h1, h2, h3⟩ := hok
        rw [← h3, ← hne]
        constructor
        · apply List.mem_append_left
          simp
        · apply List.mem_append_left
          simp
    · cases hpidx : parse idx with
      | error reason =>
        rw [hpidx] at hok
        dsimp only at hok
        cases hrec : carve_and_write_rbl_containers parse (some layout) true w pad
            decryptWith serialize rest with
        | error e2 =>
          rw [hrec] at hok
          exact absurd hok (by simp)
        | ok r =>
          obtain ⟨cs2, log2, arts2⟩ := r
          rw [hrec] at hok
          dsimp only at hok
          simp only [Except.ok.injEq, Prod.mk.injEq] at hok
          obtain ⟨h1, h2, h3⟩ := hok
          rw [← h3]
          exact ih i c pl cs2 log2 arts2 hmem hp hpl hrec
      | ok container =>
        rw [hpidx] at hok
        dsimp only at hok
        cases hplidx : container.payload with
        | none =>
          rw [hplidx] at hok
          dsimp only at hok
          cases hrec : carve_and_write_rbl_containers parse (some layout) true w pad
              decryptWith serialize rest with
          | error e2 =>
            rw [hrec] at hok
            exact absurd hok (by simp)
          | ok r =>
            obtain ⟨cs2, log2, arts2⟩ := r
            rw [hrec] at hok
            dsimp only at hok
            simp only [Except.ok.injEq, Prod.mk.injEq] at hok
            obtain ⟨h1, h2, h3⟩ := hok
            rw [← h3]
            exact ih i c pl cs2 log2 arts2 hmem hp hpl hrec
        | some pl2 =>
          rw [hplidx] at hok
          dsimp only at hok
          rw [hne] at hok
          dsimp only at hok
          cases hrec : carve_and_write_rbl_containers parse (some layout) true w pad
              decryptWith serialize rest with
          | error e2 =>
            rw [hrec] at hok
            exact absurd hok (by simp)
          | ok r =>
            obtain ⟨cs2, log2, arts2⟩ := r
            rw [hrec] at hok
            dsimp only at hok
            simp only [Except.ok.injEq, Prod.mk.injEq] at hok
            obtain ⟨h1, h2, h3⟩ := hok
            rw [← h3]
            have hih := ih i c pl cs2 log2 arts2 hmem hp hpl hrec
            exact ⟨List.mem_append_right _ hih.1, List.mem_append_right _ hih.2⟩

/-! ## Claim C8 -/

/-- Claim C8: a `ParseError` (`ValueError` from
`rbl.Container.from_bytestream`) at one candidate offset is caught locally:
the orchestrator logs a line with the offset and the failure reason and
continues with the remaining offsets, so the collected containers are
exactly the parse successes of all offsets, unaffected by failures at other
offsets. -/
theorem claim_c8_parse_error_isolation (parse : Nat → Except String Container)
    (layout? : Option FlashLayout) (e w : Bool) (pad : List Nat → List Nat)
    (decryptWith : List Nat → List Nat → Nat → List Nat)
    (serialize : Container → Bool → List Nat)
    (indices : List Nat) (cs : List Container) (log : List LogLine)
    (arts : List Artifact)
    (hok : carve_and_write_rbl_containers parse layout? e w pad decryptWith
      serialize indices = .ok (cs, log, arts)) :
    cs = indices.filterMap (fun i => (parse i).toOption) ∧
    (∀ i r, i ∈ indices → parse i = .error r → LogLine.parseFailed i r ∈ log) :=
  carve_containers_log parse layout? e w pad decryptWith serialize indices
    cs log arts hok

/-- Constant serialization model of `Container.write_to_bytestream`, used
by witnesses. -/
def serializeConst : Container → Bool → List Nat := fun _ _ => [9]

/-- Concrete parse function failing at offset 5 and succeeding elsewhere. -/
def parseTwo : Nat → Except String Container := fun i =>
  if i = 5 then .error "bad magic"
  else .ok ⟨⟨"app", "2.0.0", "CRYPT_XOR"⟩, some [1, 2, 3]⟩

/-- Witness for claim C8: with a parse failure at offset 5 and a success at
offset 7, the failure is logged with its offset and reason, and the offset-7
container is still collected. -/
theorem claim_c8_parse_error_isolation_witness :
    ([⟨⟨"app", "2.0.0", "CRYPT_XOR"⟩, some [1, 2, 3]⟩] : List Container) =
      [5, 7].filterMap (fun i => (parseTwo i).toOption) ∧
    LogLine.parseFailed 5 "bad magic" ∈
      [LogLine.parseFailed 5 "bad magic", LogLine.found 7 "app" "CRYPT_XOR" 3] := by
  have h := claim_c8_parse_error_isolation parseTwo (some appLayout) false false
    padIdent decryptIdent serializeConst [5, 7]
    [⟨⟨"app", "2.0.0", "CRYPT_XOR"⟩, some [1, 2, 3]⟩]
    [LogLine.parseFailed 5 "bad magic", LogLine.found 7 "app" "CRYPT_XOR" 3]
    [] rfl
  exact ⟨h.1, h.2 5 "bad magic" (by simp) rfl⟩

/-! ## Claim C9 -/

/-- Claim C9: a successfully parsed container whose header name matches no
partition of the layout raises no error: the orchestrator silently selects
the first partition of the layout (`layout.partitions[0]`) and, with
extraction enabled, writes the payload artifact and the decrypted artifact
under the container's own header name, the decryption being keyed by the
first partition (`decrypt_code_partition` uses its `mapped_address`). -/
theorem claim_c9_unmatched_container_name (parse : Nat → Except String Container)
    (layout : FlashLayout) (p0 : FlashPartition) (ps : List FlashPartition)
    (w : Bool) (pad : List Nat → List Nat)
    (decryptWith : List Nat → List Nat → Nat → List Nat)
    (serialize : Container → Bool → List Nat)
    (indices : List Nat) (i : Nat) (c : Container) (pl : List Nat)
    (hne : layout.partitions = p0 :: ps) (hi : i ∈ indices)
    (hp : parse i = .ok c) (hpl : c.payload = some pl)
    (hnomatch : ∀ p ∈ layout.partitions, p.name ≠ c.header.name) :
    ((carve_and_write_rbl_containers parse (some layout) true w pad decryptWith
        serialize indices).toOption.isSome = true) ∧
    (∀ cs log arts,
      carve_and_write_rbl_containers parse (some layout) true w pad decryptWith
        serialize indices = .ok (cs, log, arts) →
      Artifact.mk c.header.name c.header.version (serialize c (!w)) ∈ arts ∧
      Artifact.mk c.header.name (c.header.version ++ "_decrypted")
        (decrypt_code_partition pad decryptWith p0 pl) ∈ arts) := by
  have hlk : lookupPartition layout.partitions p0 c.header.name = p0 := by
    unfold lookupPartition
    have hfind : layout.partitions.find? (fun p => p.name == c.header.name) = none := by
      rw [List.find?_eq_none]
      intro p hp2
      simp only [beq_iff_eq]
      exact hnomatch p hp2
    rw [hfind]
  constructor
  · obtain ⟨⟨cs, log, arts⟩, hok⟩ := carve_ok parse layout p0 ps true w pad
      decryptWith serialize hne indices
    rw [hok]
    rfl
  · intro cs log arts hok
    have hmem := carve_artifacts_mem parse layout p0 ps w pad decryptWith
      serialize hne indices i c pl cs log arts hi hp hpl hok
    rw [hlk] at hmem
    exact hmem

/-- Concrete container whose name matches no partition of `appLayout`. -/
def mysteryContainer : Container := ⟨⟨"mystery", "1.0", "RBL"⟩, some [5]⟩

/-- Concrete parse function producing `mysteryContainer` at every offset. -/
def parseMystery : Nat → Except String Container := fun _ => .ok mysteryContainer

/-- Witness for claim C9: the `mystery` container (name absent from
`appLayout`) is extracted without error, and both its raw and decrypted
artifacts appear, written under the name `mystery` and decrypted via the
first partition. -/
theorem claim_c9_unmatched_container_name_witness :
    (carve_and_write_rbl_containers parseMystery (some appLayout) true false
      padIdent decryptIdent serializeConst [0]).toOption.isSome = true ∧
    Artifact.mk "mystery" "1.0" (serializeConst mysteryContainer (!false)) ∈
      [Artifact.mk "mystery" "1.0" [9], Artifact.mk "mystery" "1.0_decrypted" [5]] ∧
    Artifact.mk "mystery" ("1.0" ++ "_decrypted")
      (decrypt_code_partition padIdent decryptIdent appPartition [5]) ∈
      [Artifact.mk "mystery" "1.0" [9], Artifact.mk "mystery" "1.0_decrypted" [5]] := by
  have h := claim_c9_unmatched_container_name parseMystery appLayout
    appPartition [] false padIdent decryptIdent serializeConst [0] 0
    mysteryContainer [5] rfl (by simp) rfl rfl (by decide)
  have h2 := h.2 [mysteryContainer] [LogLine.found 0 "mystery" "RBL" 1]
    [Artifact.mk "mystery" "1.0" [9], Artifact.mk "mystery" "1.0_decrypted" [5]] rfl
  exact ⟨h.1, h2.1, h2.2⟩

/-! ## Claim C5 -/

/-- Checksum predicate that accepts everything, used by witnesses. -/
def crcTrue : List Nat → List Nat → Bool := fun _ _ => true

/-- When the pattern scan succeeds with extraction enabled, its written
artifacts are exactly the raw `pattern_scan` artifact and the
`pattern_scan_decrypted` artifact produced by `__decrypt_code_partition`
on the selected partition. -/
lemma scan_extract_arts (crc : List Nat → List Nat → Bool)
    (pad : List Nat → List Nat)
    (decryptWith : List Nat → List Nat → Nat → List Nat)
    (dump : List Nat) (name : String) (layout : FlashLayout)
    (partition : FlashPartition) (prest : List FlashPartition)
    (pl : List Nat) (arts : List Artifact)
    (hfil : layout.partitions.filter (fun p => p.name == name) = partition :: prest)
    (hok : scan_pattern_find_payload crc pad decryptWith dump name layout true =
      .ok (pl, arts)) :
    arts = [Artifact.mk name "pattern_scan" pl,
            Artifact.mk name "pattern_scan_decrypted"
              (decrypt_code_partition pad decryptWith partition pl)] := by
  unfold scan_pattern_find_payload at hok
  rw [hfil] at hok
  dsimp only at hok
  cases hw : scanWindowPayload crc partition.name
      ((dump.drop partition.start_address).take partition.size) partition.size with
  | error e2 =>
    rw [hw] at hok
    exact absurd hok (by simp)
  | ok final =>
    rw [hw] at hok
    dsimp only at hok
    simp only [Except.ok.injEq, Prod.mk.injEq] at hok
    obtain ⟨h1, h2⟩ := hok
    subst h1
    rw [← h2]
    simp

/-- Claim C5, amended: with extraction enabled, the orchestrator runs the
address-keyed cipher and writes a decrypted artifact for every recovered
payload — from the pattern-scan path and from the structured-container path
alike — unconditionally, for every partition of every layout; the partition
type is never consulted. -/
theorem claim_c5_decrypt_unconditional :
    (∀ (crc : List Nat → List Nat → Bool) (pad : List Nat → List Nat)
      (decryptWith : List Nat → List Nat → Nat → List Nat)
      (dump : List Nat) (name : String) (layout : FlashLayout)
      (partition : FlashPartition) (prest : List FlashPartition)
      (pl : List Nat) (arts : List Artifact),
      layout.partitions.filter (fun p => p.name == name) = partition :: prest →
      scan_pattern_find_payload crc pad decryptWith dump name layout true =
        .ok (pl, arts) →
      Artifact.mk name "pattern_scan_decrypted"
        (decrypt_code_partition pad decryptWith partition pl) ∈ arts) ∧
    (∀ (parse : Nat → Except String Container) (layout : FlashLayout)
      (p0 : FlashPartition) (ps : List FlashPartition) (w : Bool)
      (pad : List Nat → List Nat)
      (decryptWith : List Nat → List Nat → Nat → List Nat)
      (serialize : Container → Bool → List Nat)
      (indices : List Nat) (i : Nat) (c : Container) (pl : List Nat)
      (cs : List Container) (log : List LogLine) (arts : List Artifact),
      layout.partitions = p0 :: ps → i ∈ indices → parse i = .ok c →
      c.payload = some pl →
      carve_and_write_rbl_containers parse (some layout) true w pad decryptWith
        serialize indices = .ok (cs, log, arts) →
      Artifact.mk c.header.name (c.header.version ++ "_decrypted")
        (decrypt_code_partition pad decryptWith
          (lookupPartition layout.partitions p0 c.header.name) pl) ∈ arts) := by
  constructor
  · intro crc pad decryptWith dump name layout partition prest pl arts hfil hok
    rw [scan_extract_arts crc pad decryptWith dump name layout partition prest
      pl arts hfil hok]
    simp
  · intro parse layout p0 ps w pad decryptWith serialize indices i c pl cs log
      arts hne hi hp hpl hok
    exact (carve_artifacts_mem parse layout p0 ps w pad decryptWith serialize
      hne indices i c pl cs log arts hi hp hpl hok).2

/-- Counterexample to claim C5 as stated: `appPartition` is not a code-type
partition, yet a pattern-scan extraction run on it still produces the
`pattern_scan_decrypted` artifact, so the decrypted variant is not produced
"if and only if the payload belongs to a code-type partition". -/
theorem claim_c5_decrypt_unconditional_counterexample :
    appPartition.is_code = false ∧
    scan_pattern_find_payload crcTrue padIdent decryptIdent windowAllFF "app"
      appLayout true =
      .ok (windowAllFF,
        [Artifact.mk "app" "pattern_scan" windowAllFF,
         Artifact.mk "app" "pattern_scan_decrypted" windowAllFF]) :=
  ⟨rfl, rfl⟩

/-- Witness for the amended claim C5 at concrete inputs: the decrypted
artifact is present on both paths even for the non-code `appPartition`. -/
theorem claim_c5_decrypt_unconditional_witness :
    Artifact.mk "app" "pattern_scan_decrypted"
      (decrypt_code_partition padIdent decryptIdent appPartition windowAllFF) ∈
      [Artifact.mk "app" "pattern_scan" windowAllFF,
       Artifact.mk "app" "pattern_scan_decrypted" windowAllFF] ∧
    Artifact.mk "mystery" ("1.0" ++ "_decrypted")
      (decrypt_code_partition padIdent decryptIdent
        (lookupPartition appLayout.partitions appPartition "mystery") [5]) ∈
      [Artifact.mk "mystery" "1.0" [9], Artifact.mk "mystery" "1.0_decrypted" [5]] := by
  constructor
  · exact claim_c5_decrypt_unconditional.1 crcTrue padIdent decryptIdent
      windowAllFF "app" appLayout appPartition [] windowAllFF
      [Artifact.mk "app" "pattern_scan" windowAllFF,
       Artifact.mk "app" "pattern_scan_decrypted" windowAllFF] rfl rfl
  · exact claim_c5_decrypt_unconditional.2 parseMystery appLayout appPartition
      [] false padIdent decryptIdent serializeConst [0] 0 mysteryContainer [5]
      [mysteryContainer] [LogLine.found 0 "mystery" "RBL" 1]
      [Artifact.mk "mystery" "1.0" [9], Artifact.mk "mystery" "1.0_decrypted" [5]]
      rfl (by simp) rfl rfl rfl

/-! ## Claim C6 -/

/-- The decode counter of the decrypt-call trace equals the starting count
plus the number of calls: each call to `__decrypt_code_partition` executes
the `base64.b64decode` statement once. -/
lemma runDecryptCalls_count (pad : List Nat → List Nat)
    (decryptWith : List Nat → List Nat → Nat → List Nat) :
    ∀ (calls : List (FlashPartition × List Nat)) (acc : List (List Nat)) (n : Nat),
      (calls.foldl
        (fun acc2 call =>
          (acc2.1 ++ [decrypt_code_partition pad decryptWith call.1 call.2],
           acc2.2 + 1)) (acc, n)).2 = n + calls.length := by
  intro calls
  induction calls with
  | nil =>
    intro acc n
    simp
  | cons c rest ih =>
    intro acc n
    simp only [List.foldl_cons]
    rw [ih]
    simp only [List.length_cons]
    omega

/-- Claim C6, amended: the cipher coefficient set consists of the four
32-bit unsigned integers obtained by big-endian interpretation of the four
consecutive 4-byte groups of the fixed embedded 16-byte constant (the
base64 blob `UQ+wk6PL6txZk6F+x63rAw==`), and it is identical on every
invocation of the decryption routine; however it is not a process-wide
constant initialized once at startup: the blob is decoded inside
`__decrypt_code_partition` on every call, so a run with `n` decrypt calls
performs `n` decodes. -/
theorem claim_c6_cipher_coefficients :
    b64decode "UQ+wk6PL6txZk6F+x63rAw==" =
      [81, 15, 176, 147, 163, 203, 234, 220, 89, 147, 161, 126, 199, 173, 235, 3] ∧
    (∀ (pad : List Nat → List Nat)
      (decryptWith : List Nat → List Nat → Nat → List Nat)
      (p : FlashPartition) (payload : List Nat),
      decrypt_code_partition pad decryptWith p payload =
        decryptWith [1359982739, 2748050140, 1502847358, 3350063875]
          (pad payload) p.mapped_address) ∧
    (∀ (pad : List Nat → List Nat)
      (decryptWith : List Nat → List Nat → Nat → List Nat)
      (calls : List (FlashPartition × List Nat)),
      (runDecryptCalls pad decryptWith calls).2 = calls.length) := by
  refine ⟨by decide, ?_, ?_⟩
  · intro pad decryptWith p payload
    rfl
  · intro pad decryptWith calls
    unfold runDecryptCalls
    rw [runDecryptCalls_count pad decryptWith calls [] 0]
    omega

/-- Counterexample to claim C6 as stated: a run with two decrypt calls
performs two base64 decodes of the embedded constant, not one — the
coefficient set is re-decoded per decrypt call rather than derived once at
startup. -/
theorem claim_c6_cipher_coefficients_counterexample :
    (runDecryptCalls padIdent decryptIdent
      [(appPartition, []), (appPartition, [])]).2 = 2 ∧
    (runDecryptCalls padIdent decryptIdent
      [(appPartition, []), (appPartition, [])]).2 ≠ 1 := by
  constructor
  · rfl
  · decide

/-! ## Claim C4 -/

/-- Claim C4: in a dissection run that completes, the fallback pattern scan
is invoked on exactly the set of layout partition names not covered by a
successfully parsed container with a non-`None` payload: a name is among
the fallback names if and only if it is a partition name of the layout and
no candidate offset parses to a container with that header name and a
non-`None` payload. -/
theorem claim_c4_fallback_coverage (registry : String → Option FlashLayout)
    (parse : Nat → Except String Container) (indices : List Nat)
    (crc : List Nat → List Nat → Bool) (pad : List Nat → List Nat)
    (decryptWith : List Nat → List Nat → Nat → List Nat)
    (serialize : Container → Bool → List Nat)
    (dump : List Nat) (layout_name : String) (e w : Bool)
    (layout : FlashLayout) (res : DissectResult)
    (hreg : registry layout_name = some layout)
    (hok : dissect_dump_file registry parse indices crc pad decryptWith
      serialize dump layout_name e w = .ok res) :
    ∀ n, n ∈ res.fallback_names ↔
      ((∃ p ∈ layout.partitions, p.name = n) ∧
        ¬ ∃ i, i ∈ indices ∧ ∃ c, parse i = .ok c ∧ c.payload.isSome = true ∧
          c.header.name = n) := by
  unfold dissect_dump_file at hok
  rw [hreg] at hok
  dsimp only at hok
  cases hcarve : carve_and_write_rbl_containers parse (some layout) e w pad
      decryptWith serialize indices with
  | error e2 =>
    rw [hcarve] at hok
    exact absurd hok (by simp)
  | ok r =>
    obtain ⟨cs, log, arts1⟩ := r
    rw [hcarve] at hok
    dsimp only at hok
    cases hloop : scanMissingLoop crc pad decryptWith dump layout e
        (((layout.partitions.map (fun p => p.name)).dedup).filter
          (fun n => !(cs.any (fun c => c.payload.isSome && c.header.name == n)))) [] with
    | error e2 =>
      rw [hloop] at hok
      exact absurd hok (by simp)
    | ok arts2 =>
      rw [hloop] at hok
      dsimp only at hok
      have hres : res.fallback_names =
          ((layout.partitions.map (fun p => p.name)).dedup).filter
            (fun n => !(cs.any (fun c => c.payload.isSome && c.header.name == n))) := by
        injection hok with h
        rw [← h]
      have hcs := (carve_containers_log parse (some layout) e w pad decryptWith
        serialize indices cs log arts1 hcarve).1
      intro n
      rw [hres]
      constructor
      · intro hn
        rw [List.mem_filter] at hn
        obtain ⟨hn1, hn2⟩ := hn
        rw [List.mem_dedup, List.mem_map] at hn1
        constructor
        · obtain ⟨p, hp, hpn⟩ := hn1
          exact ⟨p, hp, hpn⟩
        · rintro ⟨i, hi, c, hpc, hsome, hname⟩
          have hcmem : c ∈ cs := by
            rw [hcs, List.mem_filterMap]
            refine ⟨i, hi, ?_⟩
            rw [hpc]
            rfl
          have hany : cs.any (fun c => c.payload.isSome && c.header.name == n) = true := by
            rw [List.any_eq_true]
            refine ⟨c, hcmem, ?_⟩
            rw [Bool.and_eq_true, beq_iff_eq]
            exact ⟨hsome, hname⟩
          rw [hany] at hn2
          simp at hn2
      · rintro ⟨⟨p, hp, hpn⟩, hnot⟩
        rw [List.mem_filter]
        constructor
        · rw [List.mem_dedup, List.mem_map]
          exact ⟨p, hp, hpn⟩
        · cases hany : cs.any (fun c => c.payload.isSome && c.header.name == n) with
          | false => rfl
          | true =>
            exfalso
            rw [List.any_eq_true] at hany
            obtain ⟨c, hcmem, hcb⟩ := hany
            rw [Bool.and_eq_true, beq_iff_eq] at hcb
            obtain ⟨hsome, hnameb⟩ := hcb
            rw [hcs, List.mem_filterMap] at hcmem
            obtain ⟨i, hi, hio⟩ := hcmem
            apply hnot
            refine ⟨i, hi, c, ?_, hsome, hnameb⟩
            cases hpi : parse i with
            | error e3 =>
              rw [hpi] at hio
              simp [Except.toOption] at hio
            | ok c2 =>
              rw [hpi] at hio
              simp only [Except.toOption, Option.some.injEq] at hio
              rw [hio]

/-- Concrete three-partition layout {A, B, C} used by the C4 witness. -/
def abcLayout : FlashLayout :=
  ⟨"ota_1", [⟨"A", 0, 16, 0, true⟩, ⟨"B", 0, 16, 0, true⟩, ⟨"C", 0, 16, 0, true⟩]⟩

/-- Concrete parse function: offset 0 yields a container named `A`, every
other offset one named `C`, both with non-`None` payloads. -/
def parseAC : Nat → Except String Container := fun i =>
  if i = 0 then .ok ⟨⟨"A", "v", "RBL"⟩, some [1]⟩
  else .ok ⟨⟨"C", "v", "RBL"⟩, some [2]⟩

/-- Concrete layout registry resolving every name to `abcLayout`. -/
def abcRegistry : String → Option FlashLayout := fun _ => some abcLayout

/-- Witness for claim C4: with containers covering `A` and `C` only,
exactly `B` is routed through the fallback path. -/
theorem claim_c4_fallback_coverage_witness :
    "B" ∈ (DissectResult.mk
      [⟨⟨"A", "v", "RBL"⟩, some [1]⟩, ⟨⟨"C", "v", "RBL"⟩, some [2]⟩]
      [LogLine.found 0 "A" "RBL" 1, LogLine.found 1 "C" "RBL" 1]
      ["B"] []).fallback_names := by
  have h := claim_c4_fallback_coverage abcRegistry parseAC [0, 1] crcTrue
    padIdent decryptIdent serializeConst windowAllFF "ota_1" false false
    abcLayout
    (DissectResult.mk
      [⟨⟨"A", "v", "RBL"⟩, some [1]⟩, ⟨⟨"C", "v", "RBL"⟩, some [2]⟩]
      [LogLine.found 0 "A" "RBL" 1, LogLine.found 1 "C" "RBL" 1]
      ["B"] []) rfl rfl "B"
  apply h.mpr
  constructor
  · exact ⟨⟨"B", 0, 16, 0, true⟩, by simp [abcLayout], rfl⟩
  · rintro ⟨i, hi, c, hpc, hsome, hname⟩
    simp at hi
    rcases hi with rfl | rfl
    · have hval : parseAC 0 = .ok ⟨⟨"A", "v", "RBL"⟩, some [1]⟩ := rfl
      rw [hval] at hpc
      injection hpc with h2
      rw [← h2] at hname
      exact absurd hname (by decide)
    · have hval : parseAC 1 = .ok ⟨⟨"C", "v", "RBL"⟩, some [2]⟩ := rfl
      rw [hval] at hpc
      injection hpc with h2
      rw [← h2] at hname
      exact absurd hname (by decide)

/-! ## Claim C10 -/

/-- With a `None` layout, the only error the carve phase can raise is the
attribute error from accessing `layout.partitions` on `None`
(src line 74). -/
lemma carve_none_error (parse : Nat → Except String Container) (e w : Bool)
    (pad : List Nat → List Nat)
    (decryptWith : List Nat → List Nat → Nat → List Nat)
    (serialize : Container → Bool → List Nat) :
    ∀ indices e2,
      carve_and_write_rbl_containers parse none e w pad decryptWith serialize
        indices = .error e2 →
      e2 = .attributeError "partitions" := by
  intro indices
  induction indices with
  | nil =>
    intro e2 h
    simp [carve_and_write_rbl_containers] at h
  | cons idx rest ih =>
    intro e2 h
    rw [carve_and_write_rbl_containers] at h
    cases hp : parse idx with
    | error reason =>
      rw [hp] at h
      dsimp only at h
      cases hrec : carve_and_write_rbl_containers parse none e w pad decryptWith
          serialize rest with
      | error e3 =>
        rw [hrec] at h
        injection h with h2
        rw [← h2]
        exact ih e3 hrec
      | ok r =>
        obtain ⟨cs, log, arts⟩ := r
        rw [hrec] at h
        exact absurd h (by simp)
    | ok container =>
      rw [hp] at h
      dsimp only at h
      cases hpl : container.payload with
      | none =>
        rw [hpl] at h
        dsimp only at h
        cases hrec : carve_and_write_rbl_containers parse none e w pad decryptWith
            serialize rest with
        | error e3 =>
          rw [hrec] at h
          injection h with h2
          rw [← h2]
          exact ih e3 hrec
        | ok r =>
          obtain ⟨cs, log, arts⟩ := r
          rw [hrec] at h
          exact absurd h (by simp)
      | some pl =>
        rw [hpl] at h
        dsimp only at h
        injection h with h2
        exact h2.symm

/-- Claim C10: when the requested flash-layout name is absent from the
layout registry, `dissect_dump_file` obtains `None` as the layout and fails
with the unhandled attribute error raised at the first access to the
layout's `partitions` attribute (src line 74 if some container carries a
payload, otherwise src line 192), rather than with one of the named
`ValueError`-style errors. -/
theorem claim_c10_unknown_layout (registry : String → Option FlashLayout)
    (parse : Nat → Except String Container) (indices : List Nat)
    (crc : List Nat → List Nat → Bool) (pad : List Nat → List Nat)
    (decryptWith : List Nat → List Nat → Nat → List Nat)
    (serialize : Container → Bool → List Nat)
    (dump : List Nat) (layout_name : String) (e w : Bool)
    (hreg : registry layout_name = none) :
    dissect_dump_file registry parse indices crc pad decryptWith serialize
      dump layout_name e w = .error (.attributeError "partitions") := by
  unfold dissect_dump_file
  rw [hreg]
  dsimp only
  cases hcarve : carve_and_write_rbl_containers parse none e w pad decryptWith
      serialize indices with
  | error e2 =>
    rw [carve_none_error parse e w pad decryptWith serialize indices e2 hcarve]
  | ok r =>
    obtain ⟨cs, log, arts⟩ := r
    rfl

/-- Concrete layout registry with no entries, used by the C10 witness. -/
def emptyRegistry : String → Option FlashLayout := fun _ => none

/-- Witness for claim C10: dissecting with an unknown layout name fails
with the attribute error on `partitions`, even though offsets parse fine. -/
theorem claim_c10_unknown_layout_witness :
    dissect_dump_file emptyRegistry parseAC [0, 1] crcTrue padIdent
      decryptIdent serializeConst windowAllFF "unknown_layout" true false =
      .error (.attributeError "partitions") :=
  claim_c10_unknown_layout emptyRegistry parseAC [0, 1] crcTrue padIdent
    decryptIdent serializeConst windowAllFF "unknown_layout" true false rfl
